import Mathlib

/-!
Verification of the media decode and timed-display pipeline of
linux-wallpaperengine-ext, as a shallow embedding of the C++ sources.

Modelling conventions used throughout this file:

* C++ `int` / `int64_t` values are modelled as `Int`; the quantities that
  appear in the claims stay far below any overflow boundary, so no modular
  reduction is applied.
* C++ `double` arithmetic on small integer-derived quantities is modelled
  exactly: a comparison of two aspect ratios `(double)a/b > (double)c/d`
  (with positive `b`, `d`) is embedded as the cross-multiplied integer
  comparison `a*d > c*b`, and a truncating cast `(int)(x/y)` of a
  non-negative quotient is embedded with `Int.tdiv`, which rounds towards
  zero exactly as the C++ cast does.  Fractional-second clock values are
  modelled as exact rationals.
* Stateful member functions are embedded as explicit state-passing
  functions; FFmpeg call outcomes that depend on file contents are
  abstracted as boolean oracles passed in as parameters.
-/

/-- Enum MediaType from media_player.h (VIDEO, IMAGE, GIF, UNKNOWN). -/
inductive MediaType where
  | VIDEO
  | IMAGE
  | GIF
  | UNKNOWN
deriving DecidableEq, Repr

/-- Characters of the filename component of a path: everything after the
last '/' (mirrors std::filesystem::path::filename on POSIX paths). -/
def filenameChars (path : String) : List Char :=
  (path.toList.reverse.takeWhile (fun c => c ≠ '/')).reverse

/-- Extension of a path, mirroring std::filesystem::path::extension:
the substring of the filename starting at its last period, except that a
filename of ".", "..", a filename without a period, or a filename whose
only period is its first character, has no extension. -/
def pathExtension (path : String) : String :=
  let f := filenameChars path
  if f = ['.'] ∨ f = ['.', '.'] then ""
  else
    let r := f.reverse
    let afterDot := r.takeWhile (fun c => c ≠ '.')
    if afterDot.length = r.length then ""
    else if afterDot.length + 1 = r.length then ""
    else String.mk ('.' :: afterDot.reverse)

/-- MediaPlayer::detect_media_type (media_player.cpp:273-288).  The
extension is lowercased and compared against known image, gif and video
extensions.  NOTE the faithful embedding of the defect at line 281: the
".gif" branch consists of the expression statement `MediaType::GIF;`
without a `return`, so control falls through to the final
`return MediaType::UNKNOWN;` — the branch therefore yields UNKNOWN. -/
def detect_media_type (file_path : String) : MediaType :=
  let extension := String.mk ((pathExtension file_path).toList.map Char.toLower)
  if extension = ".jpg" ∨ extension = ".jpeg" ∨ extension = ".png" ∨
     extension = ".bmp" ∨ extension = ".tiff" ∨ extension = ".webp" then
    MediaType.IMAGE
  else if extension = ".gif" then
    -- C++ source: `MediaType::GIF;` (no return) — value discarded,
    -- execution continues to `return MediaType::UNKNOWN;`
    MediaType.UNKNOWN
  else if extension = ".mp4" ∨ extension = ".avi" ∨ extension = ".mkv" ∨
          extension = ".mov" ∨ extension = ".webm" ∨ extension = ".flv" then
    MediaType.VIDEO
  else
    MediaType.UNKNOWN

/-- Result of MediaPlayer::load_media.  The C++ function returns bool and
reports the distinct failure causes on stderr; we keep them apart. -/
inductive LoadResult where
  | ok
  | notInitialized
  | notFound
  | unsupported
  | loadFailed
deriving DecidableEq, Repr

/-- The slice of MediaPlayer state that load_media touches
(media_player.h).  FFmpeg handle fields are abstracted to the booleans
that record whether they are live. -/
structure PlayerState where
  initialized : Bool
  /-- decoder_initialized_: true when the FFmpeg decode contexts are set up. -/
  decoderInitialized : Bool
  /-- image_data_ != nullptr. -/
  imageData : Bool
  hasVideo : Bool
  currentMedia : String
  mediaType : MediaType
deriving DecidableEq, Repr

/-- Effect of cleanup_ffmpeg_decoder() followed by free_image_data()
(media_player.cpp:514-560, 689-694) on the abstracted state: all decode
state is torn down. -/
def cleanupDecodeState (st : PlayerState) : PlayerState :=
  { st with decoderInitialized := false, imageData := false }

/-- MediaPlayer::load_media (media_player.cpp:88-117).  `fs` tells whether
a path exists (std::filesystem::exists); `imgOk` and `vidOk` abstract the
success of load_image_ffmpeg / load_video_ffmpeg on an existing file.  On
image/gif success the decoded frame is cached (image_data_, decoder set
up); on video success the decoder is set up.  Note the order: the
initialization and existence checks return BEFORE the cleanup calls. -/
def load_media (fs imgOk vidOk : String → Bool) (st : PlayerState)
    (media_path : String) : LoadResult × PlayerState :=
  if st.initialized = false then (LoadResult.notInitialized, st)
  else if fs media_path = false then (LoadResult.notFound, st)
  else
    let st1 := cleanupDecodeState st
    let st2 := { st1 with currentMedia := media_path,
                          mediaType := detect_media_type media_path }
    match detect_media_type media_path with
    | MediaType.IMAGE | MediaType.GIF =>
        if imgOk media_path then
          (LoadResult.ok, { st2 with imageData := true,
                                     decoderInitialized := true,
                                     hasVideo := true })
        else (LoadResult.loadFailed, st2)
    | MediaType.VIDEO =>
        if vidOk media_path then
          (LoadResult.ok, { st2 with decoderInitialized := true,
                                     hasVideo := true })
        else (LoadResult.loadFailed, st2)
    | MediaType.UNKNOWN => (LoadResult.unsupported, st2)

/-- Enum ScalingMode from display_manager.h:25-30.  The comment block
above the enum documents DEFAULT as "Falls back to FIT mode behavior". -/
inductive ScalingMode where
  | STRETCH
  | FIT
  | FILL
  | DEFAULT
deriving DecidableEq, Repr

/-- Placement produced by the compositors: render size and destination
offset (offsets may be negative under FILL to signal cropping). -/
structure Placement where
  renderW : Int
  renderH : Int
  offX : Int
  offY : Int
deriving DecidableEq, Repr

/-- Placement switch of WaylandVideoRenderer::apply_scaling_shm
(wayland_video_renderer.cpp:351-416), before the non-FILL clamp.  The C++
double comparison src_aspect > dst_aspect is embedded cross-multiplied
(srcW*dstH > dstW*srcH, exact for positive dimensions), and each
truncating cast (int)(x/y) of the corresponding exact quotient is
Int.tdiv, which rounds towards zero like the cast. -/
def apply_scaling_shm_placement_raw (scaling : ScalingMode)
    (srcW srcH dstW dstH : Int) : Placement :=
  match scaling with
  | ScalingMode.STRETCH => ⟨dstW, dstH, 0, 0⟩
  | ScalingMode.FIT =>
      if srcW * dstH > dstW * srcH then
        -- render_height = (int)(dst_width / src_aspect), vertically centered
        let rh := (dstW * srcH).tdiv srcW
        ⟨dstW, rh, 0, (dstH - rh).tdiv 2⟩
      else
        -- render_width = (int)(dst_height * src_aspect), horizontally centered
        let rw := (dstH * srcW).tdiv srcH
        ⟨rw, dstH, (dstW - rw).tdiv 2, 0⟩
  | ScalingMode.FILL =>
      if srcW * dstH > dstW * srcH then
        -- source wider: crop horizontally, offset_x = -(render_width - dst_width) / 2
        let rw := (dstH * srcW).tdiv srcH
        ⟨rw, dstH, (-(rw - dstW)).tdiv 2, 0⟩
      else
        -- source taller: crop vertically, offset_y = -(render_height - dst_height) / 2
        let rh := (dstW * srcH).tdiv srcW
        ⟨dstW, rh, 0, (-(rh - dstH)).tdiv 2⟩
  | ScalingMode.DEFAULT =>
      -- "Use original source size, centered"
      ⟨srcW, srcH, (dstW - srcW).tdiv 2, (dstH - srcH).tdiv 2⟩

/-- Clamp step of apply_scaling_shm (wayland_video_renderer.cpp:420-430):
for every mode except FILL, negative offsets are clamped to 0 and the
render size is clamped so it does not extend past the destination. -/
def apply_scaling_shm_clamp (scaling : ScalingMode) (dstW dstH : Int)
    (p : Placement) : Placement :=
  if scaling ≠ ScalingMode.FILL then
    let ox := if p.offX < 0 then 0 else p.offX
    let oy := if p.offY < 0 then 0 else p.offY
    let rw := if p.renderW + ox > dstW then dstW - ox else p.renderW
    let rh := if p.renderH + oy > dstH then dstH - oy else p.renderH
    ⟨rw, rh, ox, oy⟩
  else p

/-- Full placement computation of WaylandVideoRenderer::apply_scaling_shm:
the mode switch followed by the non-FILL clamp. -/
def apply_scaling_shm_placement (scaling : ScalingMode)
    (srcW srcH dstW dstH : Int) : Placement :=
  apply_scaling_shm_clamp scaling dstW dstH
    (apply_scaling_shm_placement_raw scaling srcW srcH dstW dstH)

/-- Placement switch of X11Display::render_to_image_buffer
(x11_display.cpp:594-644).  img = source frame, buf = destination buffer.
Same embedding conventions as the Wayland placement; this backend has no
clamp step (bounds are checked per pixel in the copy loop) and its
DEFAULT arm takes the min of source and destination sizes. -/
def render_to_image_buffer_placement (scaling : ScalingMode)
    (imgW imgH bufW bufH : Int) : Placement :=
  match scaling with
  | ScalingMode.STRETCH => ⟨bufW, bufH, 0, 0⟩
  | ScalingMode.FIT =>
      if imgW * bufH > bufW * imgH then
        let dh := (bufW * imgH).tdiv imgW
        ⟨bufW, dh, 0, (bufH - dh).tdiv 2⟩
      else
        let dw := (bufH * imgW).tdiv imgH
        ⟨dw, bufH, (bufW - dw).tdiv 2, 0⟩
  | ScalingMode.FILL =>
      if imgW * bufH > bufW * imgH then
        -- image wider: scale to height, dest_x = (width_ - dest_width) / 2 (negative: crop)
        let dw := (bufH * imgW).tdiv imgH
        ⟨dw, bufH, (bufW - dw).tdiv 2, 0⟩
      else
        let dh := (bufW * imgH).tdiv imgW
        ⟨bufW, dh, 0, (bufH - dh).tdiv 2⟩
  | ScalingMode.DEFAULT =>
      let dw := min imgW bufW
      let dh := min imgH bufH
      ⟨dw, dh, (bufW - dw).tdiv 2, (bufH - dh).tdiv 2⟩


/-- One pixel transfer performed by a compositor copy loop: the
destination coordinates written and the (clamped) source coordinates
read for that write. -/
structure PixelWrite where
  dstX : Int
  dstY : Int
  srcX : Int
  srcY : Int
deriving DecidableEq, Repr

/-- Pixel copy loop of WaylandVideoRenderer::apply_scaling_shm
(wayland_video_renderer.cpp:446-493), embedded as the list of pixel
writes it performs, in loop order.  The loop runs y over
[0, render_height), x over [0, render_width); destination coordinates
are offset by the placement, out-of-bounds destinations are skipped
(continue), source coordinates come from the integer-ratio division,
the Y axis is flipped in windowed mode, and source coordinates are
clamped before the read.  The placement argument carries render size and
offsets exactly as computed by apply_scaling_shm_placement. -/
def apply_scaling_shm_writes (srcW srcH dstW dstH : Int) (p : Placement)
    (windowed_mode : Bool) : List PixelWrite :=
  (List.range p.renderH.toNat).flatMap (fun (y : ℕ) =>
    (List.range p.renderW.toNat).filterMap (fun (x : ℕ) =>
      let dstX : Int := (x : Int) + p.offX
      let dstY : Int := (y : Int) + p.offY
      if dstX < 0 ∨ dstX ≥ dstW ∨ dstY < 0 ∨ dstY ≥ dstH then none
      else
        let srcX : Int := ((x : Int) * srcW).tdiv p.renderW
        let srcY0 : Int := ((y : Int) * srcH).tdiv p.renderH
        let srcY1 : Int := if windowed_mode then srcH - 1 - srcY0 else srcY0
        let srcX' : Int := if srcX ≥ srcW then srcW - 1 else srcX
        let srcY2 : Int := if srcY1 < 0 then 0 else srcY1
        let srcY3 : Int := if srcY2 ≥ srcH then srcH - 1 else srcY2
        some ⟨dstX, dstY, srcX', srcY3⟩))

/-- Pixel copy loop of X11Display::render_to_image_buffer
(x11_display.cpp:657-691), embedded as the list of pixel writes it
performs.  This loop computes and clamps the source coordinates first
(no Y flip: background mode), then skips the write when the offset
destination coordinates fall outside the buffer. -/
def render_to_image_buffer_writes (imgW imgH bufW bufH : Int)
    (p : Placement) : List PixelWrite :=
  (List.range p.renderH.toNat).flatMap (fun (y : ℕ) =>
    (List.range p.renderW.toNat).filterMap (fun (x : ℕ) =>
      let srcX : Int := ((x : Int) * imgW).tdiv p.renderW
      let srcY : Int := ((y : Int) * imgH).tdiv p.renderH
      let srcX' : Int := if srcX ≥ imgW then imgW - 1 else srcX
      let srcY1 : Int := if srcY < 0 then 0 else srcY
      let srcY2 : Int := if srcY1 ≥ imgH then imgH - 1 else srcY1
      let bufX : Int := (x : Int) + p.offX
      let bufY : Int := (y : Int) + p.offY
      if bufX < 0 ∨ bufY < 0 ∨ bufX ≥ bufW ∨ bufY ≥ bufH then none
      else some ⟨bufX, bufY, srcX', srcY2⟩))

/-- Truncation towards zero of an exact rational, the behavior of a C++
cast of a floating-point value to an integer type. -/
def ratTruncToInt (q : ℚ) : Int := q.num.tdiv (q.den : Int)

/-- Clamp of process_audio_frame_data's planar-float branch:
std::max(-1.0f, std::min(1.0f, sample_val)). -/
def clampSample (v : ℚ) : ℚ := max (-1) (min 1 v)

/-- Sample payload of a decoded audio frame, by sample format tag
(frame->format).  s16 carries the interleaved 16-bit samples of
frame->data[0]; fltp and s16p carry one list per channel plane; other is
any remaining AVSampleFormat. -/
inductive AudioSampleData where
  | s16 (samples : List Int)
  | fltp (planes : List (List ℚ))
  | s16p (planes : List (List Int))
  | other (fmt : Int)

/-- MediaPlayer::process_audio_frame_data (media_player.cpp:965-1023),
embedded as the conversion from the decoded frame's sample data to the
output buffer handed to the audio sink, one list entry per signed 16-bit
output slot.  The C++ buffer has samples_per_channel * channels slots
(zero-initialized std::vector) and the conversion loops write slot
sample * channels + ch for sample then ch in increasing order, which is
exactly the concatenation below; the S16 branch memcpys output_size
bytes, i.e. the first samples_per_channel * channels source samples; any
other format leaves the zero-initialized buffer (silence). -/
def process_audio_frame_data (samples_per_channel channels : ℕ)
    (data : AudioSampleData) : List Int :=
  match data with
  | AudioSampleData.s16 xs => xs.take (samples_per_channel * channels)
  | AudioSampleData.fltp planes =>
      (List.range samples_per_channel).flatMap (fun sample =>
        (List.range channels).map (fun ch =>
          ratTruncToInt (clampSample ((planes.getD ch []).getD sample 0) * 32767)))
  | AudioSampleData.s16p planes =>
      (List.range samples_per_channel).flatMap (fun sample =>
        (List.range channels).map (fun ch =>
          (planes.getD ch []).getD sample 0))
  | AudioSampleData.other _ =>
      List.replicate (samples_per_channel * channels) 0

/-- Wall-clock wait (seconds) applied by MediaPlayer::extract_next_frame
before returning a decoded frame (media_player.cpp:711-737).
fps_limiting_active is the flag (target_display_fps_ < frame_rate_)
computed at line 713; when it is false the code computes
expected_time = playback_start_time_ + frame_pts and sleeps for
wait_time = expected_time - current_real_time only when
0 < wait_time < 0.1 (the "Wait max 100ms" guard at line 731); otherwise
it does not sleep at all. -/
def extract_frame_wait (fps_limiting_active : Bool)
    (playback_start_time frame_pts current_real_time : ℚ) : ℚ :=
  if fps_limiting_active then 0
  else
    let expected_time := playback_start_time + frame_pts
    if current_real_time < expected_time then
      let wait_time := expected_time - current_real_time
      if 0 < wait_time ∧ wait_time < 1 / 10 then wait_time else 0
    else 0

/-- Truncating int64_t cast of 1000000.0 / target_display_fps_
(media_player.cpp:1034): the target display interval in microseconds.
For a positive rational fps = num/den the exact value 1000000/fps equals
1000000*den/num, truncated towards zero by the cast. -/
def target_interval_us (fps : ℚ) : Int :=
  ((1000000 : Int) * (fps.den : Int)).tdiv fps.num

/-- MediaPlayer::should_display_frame (media_player.cpp:1025-1043).  The
last-display timestamp is a function-local STATIC std::chrono time_point
(line 1027), i.e. one process-wide cell shared by every MediaPlayer
instance and untouched by load_media; it is passed here explicitly as
last_display_ns.  Times are steady-clock nanoseconds; the elapsed time
is duration_cast to whole microseconds (truncation) and compared with
the target interval; on a true return the static is set to now. -/
def should_display_frame (target_display_fps : ℚ)
    (last_display_ns now_ns : Int) : Bool × Int :=
  let time_since_last_display_us := (now_ns - last_display_ns).tdiv 1000
  let target_interval := target_interval_us target_display_fps
  if time_since_last_display_us ≥ target_interval then (true, now_ns)
  else (false, last_display_ns)

/-- Iteration of should_display_frame over a sequence of call times,
threading the shared static through the calls; returns the call times at
which the gate returned true. -/
def display_true_times (fps : ℚ) (last : Int) : List Int → List Int
  | [] => []
  | t :: ts =>
      let r := should_display_frame fps last t
      if r.1 then t :: display_true_times fps r.2 ts
      else display_true_times fps r.2 ts

/-- A demuxed packet as seen by the extract_next_frame loop: its stream
index, and, when it belongs to a stream and decodes to a picture, the
decoded frame's PTS in seconds (frame->pts * time_base).  decodedPts =
none covers packets of other streams' indices never reaching the decode
step as well as video packets whose send/receive step fails (both are
skipped by the loop). -/
structure MediaPacket where
  streamIndex : Int
  decodedPts : Option ℚ
deriving DecidableEq, Repr

/-- Decode-loop state of MediaPlayer used by extract_next_frame: the
demuxer read position in the packet sequence and the timing fields. -/
structure ExtractState where
  readPos : ℕ
  videoPts : ℚ
  playbackStart : ℚ
  lastFramePts : ℚ
  hasCachedFrame : Bool
deriving DecidableEq, Repr

/-- First packet of the given video stream that decodes to a frame:
returns its index in the list and its PTS.  This is the scan performed
by the while (av_read_frame ...) loop of extract_next_frame
(media_player.cpp:716-757): packets of other streams and packets that
fail to decode are unreffed and skipped. -/
def firstFrame (videoIdx : Int) : List MediaPacket → Option (ℕ × ℚ)
  | [] => none
  | p :: ps =>
      if p.streamIndex = videoIdx then
        match p.decodedPts with
        | some q => some (0, q)
        | none => (firstFrame videoIdx ps).map (fun r => (r.1 + 1, r.2))
      else (firstFrame videoIdx ps).map (fun r => (r.1 + 1, r.2))

/-- MediaPlayer::extract_next_frame (media_player.cpp:696-764), reduced
to demuxing and clock state (the per-frame wait is extract_frame_wait
and does not alter this state beyond video_pts_/last_frame_pts_).  On
entry, a zero playback_start_time_ is initialized to now (lines
706-709).  The packet loop returns the next decodable video frame and
advances the read position past it; at end of stream (the while loop
exhausts the packets) the code seeks back to the start, zeroes the video
clock, resets playback_start_time_ to now and calls itself again (lines
759-763) — that second pass scans from the start of the stream.  The C++
recursion would recurse without bound on a stream with no decodable
video frame; the embedding returns none in that case. -/
def extract_next_frame (stream : List MediaPacket) (videoIdx : Int)
    (now : ℚ) (st : ExtractState) : Option (ℚ × ExtractState) :=
  let st0 := if st.playbackStart = 0
             then { st with playbackStart := now, videoPts := 0 } else st
  match firstFrame videoIdx (stream.drop st0.readPos) with
  | some r =>
      some (r.2, { st0 with readPos := st0.readPos + r.1 + 1, videoPts := r.2,
                            lastFramePts := r.2, hasCachedFrame := true })
  | none =>
      let st1 := { st0 with readPos := 0, videoPts := 0, playbackStart := now }
      match firstFrame videoIdx stream with
      | some r =>
          some (r.2, { st1 with readPos := r.1 + 1, videoPts := r.2,
                                lastFramePts := r.2, hasCachedFrame := true })
      | none => none

/-- C1: the claim states that load classifies an existing ".gif" file as
MediaType.GIF and does not fail with the unsupported-format error.  The
code violates this: the ".gif" branch of detect_media_type
(media_player.cpp:280-281) lacks a return statement, so detection yields
UNKNOWN and load_media takes the unsupported-format failure path, even
though load_media's own switch has a dedicated MediaType::GIF case
(line 109) that shows the intended classification.  This theorem
evaluates the embedded code at the failing input "wallpaper.gif"
(existing, initialized player, decodable file). -/
theorem c1_gif_detected_unknown_load_unsupported :
    detect_media_type "wallpaper.gif" = MediaType.UNKNOWN ∧
    detect_media_type "dir/Anim.GIF" = MediaType.UNKNOWN ∧
    (load_media (fun p => p == "wallpaper.gif") (fun _ => true) (fun _ => true)
        ⟨true, false, false, false, "", MediaType.UNKNOWN⟩ "wallpaper.gif").1 =
      LoadResult.unsupported := by
  decide

/-- C8 counterexample: a load_media call on a nonexistent path fails with
NotFound but returns with the prior decode state fully intact
(decoderInitialized and imageData still true), refuting the claim that
every load call resets prior decode state unconditionally before
returning: the cleanup calls (media_player.cpp:101-102) sit after the
existence check (line 94), which returns early. -/
theorem c8_notfound_leaves_decode_state :
    load_media (fun _ => false) (fun _ => true) (fun _ => true)
        ⟨true, true, true, true, "old.mp4", MediaType.VIDEO⟩ "missing.mp4" =
      (LoadResult.notFound,
        ⟨true, true, true, true, "old.mp4", MediaType.VIDEO⟩) ∧
    (load_media (fun _ => false) (fun _ => true) (fun _ => true)
        ⟨true, true, true, true, "old.mp4", MediaType.VIDEO⟩
        "missing.mp4").2.decoderInitialized = true := by
  decide

/-- C8 (amended): on an initialized player, load_media fails with NotFound
and leaves the state untouched when the path does not exist; on every
load call that passes the initialization and existence checks the prior
decode state is torn down before the media type is dispatched, so the
outcome is the same as if the player had started with no decode state. -/
theorem c8_load_notfound_and_reset (fs imgOk vidOk : String → Bool)
    (st : PlayerState) (path : String) :
    (st.initialized = true → fs path = false →
      load_media fs imgOk vidOk st path = (LoadResult.notFound, st)) ∧
    (st.initialized = true → fs path = true →
      load_media fs imgOk vidOk st path =
        load_media fs imgOk vidOk (cleanupDecodeState st) path) := by
  constructor
  · intro hinit hfs
    simp [load_media, hinit, hfs]
  · intro hinit hfs
    simp [load_media, hinit, hfs, cleanupDecodeState]

/-- C8 witness: the amended theorem applied at a concrete state and path. -/
theorem c8_load_notfound_and_reset_witness :
    (⟨true, true, true, true, "old.mp4", MediaType.VIDEO⟩ : PlayerState).initialized
        = true ∧
    (fun (_ : String) => false) "missing.mp4" = false ∧
    load_media (fun _ => false) (fun _ => true) (fun _ => true)
        ⟨true, true, true, true, "old.mp4", MediaType.VIDEO⟩ "missing.mp4" =
      (LoadResult.notFound,
        ⟨true, true, true, true, "old.mp4", MediaType.VIDEO⟩) :=
  ⟨by decide, by decide,
    (c8_load_notfound_and_reset (fun _ => false) (fun _ => true) (fun _ => true)
      ⟨true, true, true, true, "old.mp4", MediaType.VIDEO⟩ "missing.mp4").1
      (by decide) (by decide)⟩

/-- C2: both backends evaluated at src 1920x1080, dst 800x600.  FIT gives
the letterboxed 800x450 placement at (0,75); DEFAULT gives the original
source size centered (clamped to the full 800x600 destination in the
Wayland path, min-clamped in the X11 path), so DEFAULT does not produce
the same placement as FIT, contradicting the claim and the enum's own
documentation (display_manager.h:20 "DEFAULT (3): Falls back to FIT mode
behavior"). -/
theorem c2_default_differs_from_fit :
    apply_scaling_shm_placement ScalingMode.DEFAULT 1920 1080 800 600 =
      ⟨800, 600, 0, 0⟩ ∧
    apply_scaling_shm_placement ScalingMode.FIT 1920 1080 800 600 =
      ⟨800, 450, 0, 75⟩ ∧
    render_to_image_buffer_placement ScalingMode.DEFAULT 1920 1080 800 600 =
      ⟨800, 600, 0, 0⟩ ∧
    render_to_image_buffer_placement ScalingMode.FIT 1920 1080 800 600 =
      ⟨800, 450, 0, 75⟩ ∧
    apply_scaling_shm_placement ScalingMode.DEFAULT 1920 1080 800 600 ≠
      apply_scaling_shm_placement ScalingMode.FIT 1920 1080 800 600 ∧
    render_to_image_buffer_placement ScalingMode.DEFAULT 1920 1080 800 600 ≠
      render_to_image_buffer_placement ScalingMode.FIT 1920 1080 800 600 := by
  decide

/-- Helper: the C++ double comparison of aspect ratios agrees with the
cross-multiplied integer comparison used in the embedding. -/
lemma aspect_cond_iff (sw sh dw dh : Int) (hsh : 0 < sh) (hdh : 0 < dh) :
    ((dw : ℚ) / (dh : ℚ) < (sw : ℚ) / (sh : ℚ)) ↔ dw * sh < sw * dh := by
  rw [div_lt_div_iff₀ (by exact_mod_cast hdh) (by exact_mod_cast hsh)]
  exact_mod_cast Iff.rfl

/-- Helper: bounds of the X11 FIT placement arm. -/
lemma fit_raw_bounds (sw sh dw dh : Int)
    (hsw : 0 < sw) (hsh : 0 < sh) (hdw : 0 < dw) (hdh : 0 < dh) :
    0 ≤ (render_to_image_buffer_placement ScalingMode.FIT sw sh dw dh).offX ∧
    0 ≤ (render_to_image_buffer_placement ScalingMode.FIT sw sh dw dh).offY ∧
    (render_to_image_buffer_placement ScalingMode.FIT sw sh dw dh).offX +
      (render_to_image_buffer_placement ScalingMode.FIT sw sh dw dh).renderW ≤ dw ∧
    (render_to_image_buffer_placement ScalingMode.FIT sw sh dw dh).offY +
      (render_to_image_buffer_placement ScalingMode.FIT sw sh dw dh).renderH ≤ dh ∧
    0 ≤ (render_to_image_buffer_placement ScalingMode.FIT sw sh dw dh).renderW ∧
    0 ≤ (render_to_image_buffer_placement ScalingMode.FIT sw sh dw dh).renderH := by
  simp only [render_to_image_buffer_placement]
  split_ifs with hc
  · have hrh0 : (0 : Int) ≤ (dw * sh).tdiv sw :=
      Int.tdiv_nonneg (by positivity) hsw.le
    have hrhe : (dw * sh).tdiv sw = dw * sh / sw :=
      Int.tdiv_eq_ediv (by positivity) hsw.le
    have hrhlt : (dw * sh).tdiv sw < dh := by
      rw [hrhe, Int.ediv_lt_iff_lt_mul hsw]
      calc dw * sh < sw * dh := hc
        _ = dh * sw := by ring
    have hoye : (dh - (dw * sh).tdiv sw).tdiv 2 = (dh - (dw * sh).tdiv sw) / 2 :=
      Int.tdiv_eq_ediv (by omega) (by omega)
    have hoy0 : 0 ≤ (dh - (dw * sh).tdiv sw).tdiv 2 :=
      Int.tdiv_nonneg (by omega) (by omega)
    have hoyle : (dh - (dw * sh).tdiv sw).tdiv 2 ≤ dh - (dw * sh).tdiv sw := by
      rw [hoye]
      exact Int.ediv_le_self 2 (by omega)
    refine ⟨?_, ?_, ?_, ?_, ?_, ?_⟩ <;> (dsimp only; omega)
  · have hc' : sw * dh ≤ dw * sh := not_lt.1 hc
    have hrw0 : (0 : Int) ≤ (dh * sw).tdiv sh :=
      Int.tdiv_nonneg (by positivity) hsh.le
    have hrwe : (dh * sw).tdiv sh = dh * sw / sh :=
      Int.tdiv_eq_ediv (by positivity) hsh.le
    have hrwle : (dh * sw).tdiv sh ≤ dw := by
      rw [hrwe]
      calc dh * sw / sh ≤ dw * sh / sh :=
            Int.ediv_le_ediv hsh (by linarith [mul_comm dh sw, mul_comm sw dh])
        _ = dw := Int.mul_ediv_cancel dw hsh.ne'
    have hoxe : (dw - (dh * sw).tdiv sh).tdiv 2 = (dw - (dh * sw).tdiv sh) / 2 :=
      Int.tdiv_eq_ediv (by omega) (by omega)
    have hox0 : 0 ≤ (dw - (dh * sw).tdiv sh).tdiv 2 :=
      Int.tdiv_nonneg (by omega) (by omega)
    have hoxle : (dw - (dh * sw).tdiv sh).tdiv 2 ≤ dw - (dh * sw).tdiv sh := by
      rw [hoxe]
      exact Int.ediv_le_self 2 (by omega)
    refine ⟨?_, ?_, ?_, ?_, ?_, ?_⟩ <;> (dsimp only; omega)

/-- Helper: the non-FILL clamp of apply_scaling_shm leaves a placement
that is already inside the destination unchanged (FIT case). -/
lemma apply_scaling_shm_clamp_fit_noop (dstW dstH : Int) (p : Placement)
    (h1 : 0 ≤ p.offX) (h2 : 0 ≤ p.offY)
    (h3 : p.offX + p.renderW ≤ dstW) (h4 : p.offY + p.renderH ≤ dstH) :
    apply_scaling_shm_clamp ScalingMode.FIT dstW dstH p = p := by
  obtain ⟨rw0, rh0, ox, oy⟩ := p
  dsimp only at h1 h2 h3 h4
  simp only [apply_scaling_shm_clamp]
  rw [if_pos (by decide : ScalingMode.FIT ≠ ScalingMode.FILL)]
  rw [if_neg (by omega : ¬ ox < 0), if_neg (by omega : ¬ oy < 0)]
  rw [if_neg (by omega : ¬ rw0 + ox > dstW), if_neg (by omega : ¬ rh0 + oy > dstH)]

/-- Helper: the raw Wayland FIT placement coincides with the X11 FIT
placement (the two switch arms are the same computation). -/
lemma wayland_fit_raw_eq_x11 (sw sh dw dh : Int) :
    apply_scaling_shm_placement_raw ScalingMode.FIT sw sh dw dh =
      render_to_image_buffer_placement ScalingMode.FIT sw sh dw dh := rfl

/-- Helper: X11 FIT placement, source-wider branch. -/
lemma x11_fit_wide (sw sh dw dh : Int) (h : dw * sh < sw * dh) :
    render_to_image_buffer_placement ScalingMode.FIT sw sh dw dh =
      ⟨dw, (dw * sh).tdiv sw, 0, (dh - (dw * sh).tdiv sw).tdiv 2⟩ := by
  simp only [render_to_image_buffer_placement]
  rw [if_pos h]

/-- Helper: X11 FIT placement, source-not-wider branch. -/
lemma x11_fit_tall (sw sh dw dh : Int) (h : ¬ dw * sh < sw * dh) :
    render_to_image_buffer_placement ScalingMode.FIT sw sh dw dh =
      ⟨(dh * sw).tdiv sh, dh, (dw - (dh * sw).tdiv sh).tdiv 2, 0⟩ := by
  simp only [render_to_image_buffer_placement]
  rw [if_neg h]

/-- C5: the FIT placement of both backends preserves the claimed geometry
and containment.  If the source aspect exceeds the destination aspect the
render width is the destination width, the render height is the
truncation of dst width / src aspect and the placement is vertically
centered; otherwise the render height is the destination height, the
render width is the truncation of dst height * src aspect and the
placement is horizontally centered.  The placement always lies entirely
inside the destination (non-negative offsets, offset + render size within
bounds), both backends agree, and the concrete instance src 1920x1080
into dst 800x600 renders 800x450 at offset (0,75). -/
theorem c5_fit_placement (sw sh dw dh : Int)
    (hsw : 0 < sw) (hsh : 0 < sh) (hdw : 0 < dw) (hdh : 0 < dh) :
    (apply_scaling_shm_placement ScalingMode.FIT sw sh dw dh =
      render_to_image_buffer_placement ScalingMode.FIT sw sh dw dh) ∧
    (((dw : ℚ) / (dh : ℚ) < (sw : ℚ) / (sh : ℚ)) →
      render_to_image_buffer_placement ScalingMode.FIT sw sh dw dh =
        ⟨dw, (dw * sh).tdiv sw, 0, (dh - (dw * sh).tdiv sw).tdiv 2⟩) ∧
    (¬ ((dw : ℚ) / (dh : ℚ) < (sw : ℚ) / (sh : ℚ)) →
      render_to_image_buffer_placement ScalingMode.FIT sw sh dw dh =
        ⟨(dh * sw).tdiv sh, dh, (dw - (dh * sw).tdiv sh).tdiv 2, 0⟩) ∧
    (0 ≤ (render_to_image_buffer_placement ScalingMode.FIT sw sh dw dh).offX ∧
     0 ≤ (render_to_image_buffer_placement ScalingMode.FIT sw sh dw dh).offY ∧
     (render_to_image_buffer_placement ScalingMode.FIT sw sh dw dh).offX +
       (render_to_image_buffer_placement ScalingMode.FIT sw sh dw dh).renderW ≤ dw ∧
     (render_to_image_buffer_placement ScalingMode.FIT sw sh dw dh).offY +
       (render_to_image_buffer_placement ScalingMode.FIT sw sh dw dh).renderH ≤ dh) ∧
    render_to_image_buffer_placement ScalingMode.FIT 1920 1080 800 600 =
      ⟨800, 450, 0, 75⟩ := by
  obtain ⟨b1, b2, b3, b4, b5, b6⟩ := fit_raw_bounds sw sh dw dh hsw hsh hdw hdh
  refine ⟨?_, ?_, ?_, ⟨b1, b2, b3, b4⟩, by decide⟩
  · show apply_scaling_shm_clamp ScalingMode.FIT dw dh
        (apply_scaling_shm_placement_raw ScalingMode.FIT sw sh dw dh) = _
    rw [wayland_fit_raw_eq_x11]
    exact apply_scaling_shm_clamp_fit_noop dw dh _ b1 b2 b3 b4
  · intro hq
    exact x11_fit_wide sw sh dw dh ((aspect_cond_iff sw sh dw dh hsh hdh).1 hq)
  · intro hq
    exact x11_fit_tall sw sh dw dh
      (fun hlt => hq ((aspect_cond_iff sw sh dw dh hsh hdh).2 hlt))

/-- C5 witness: the FIT placement theorem applied at src 1920x1080,
dst 800x600. -/
theorem c5_fit_placement_witness :
    (0 : Int) < 1920 ∧ (0 : Int) < 1080 ∧ (0 : Int) < 800 ∧ (0 : Int) < 600 ∧
    (apply_scaling_shm_placement ScalingMode.FIT 1920 1080 800 600 =
       render_to_image_buffer_placement ScalingMode.FIT 1920 1080 800 600 ∧
     (((800 : ℚ) / (600 : ℚ) < (1920 : ℚ) / (1080 : ℚ)) →
       render_to_image_buffer_placement ScalingMode.FIT 1920 1080 800 600 =
         ⟨800, ((800 : Int) * 1080).tdiv 1920, 0,
          (600 - ((800 : Int) * 1080).tdiv 1920).tdiv 2⟩) ∧
     (¬ ((800 : ℚ) / (600 : ℚ) < (1920 : ℚ) / (1080 : ℚ)) →
       render_to_image_buffer_placement ScalingMode.FIT 1920 1080 800 600 =
         ⟨((600 : Int) * 1920).tdiv 1080, 600,
          (800 - ((600 : Int) * 1920).tdiv 1080).tdiv 2, 0⟩) ∧
     (0 ≤ (render_to_image_buffer_placement ScalingMode.FIT 1920 1080 800 600).offX ∧
      0 ≤ (render_to_image_buffer_placement ScalingMode.FIT 1920 1080 800 600).offY ∧
      (render_to_image_buffer_placement ScalingMode.FIT 1920 1080 800 600).offX +
        (render_to_image_buffer_placement ScalingMode.FIT 1920 1080 800 600).renderW
          ≤ 800 ∧
      (render_to_image_buffer_placement ScalingMode.FIT 1920 1080 800 600).offY +
        (render_to_image_buffer_placement ScalingMode.FIT 1920 1080 800 600).renderH
          ≤ 600) ∧
     render_to_image_buffer_placement ScalingMode.FIT 1920 1080 800 600 =
       ⟨800, 450, 0, 75⟩) :=
  ⟨by decide, by decide, by decide, by decide,
   c5_fit_placement 1920 1080 800 600 (by decide) (by decide) (by decide) (by decide)⟩

/-- C6: in both backends' copy loops, every performed pixel write has
destination coordinates inside [0, dst_w) x [0, dst_h) (out-of-bounds
destinations, possible under FILL's negative offsets, are skipped), and
the source coordinates actually read are clamped into
[0, src dim - 1].  Holds for every placement, including negative
offsets, for any positive source dimensions. -/
theorem c6_copy_writes_in_bounds (srcW srcH dstW dstH : Int) (p : Placement)
    (windowed_mode : Bool) (hsw : 0 < srcW) (hsh : 0 < srcH) :
    (∀ w ∈ apply_scaling_shm_writes srcW srcH dstW dstH p windowed_mode,
       (0 ≤ w.dstX ∧ w.dstX < dstW ∧ 0 ≤ w.dstY ∧ w.dstY < dstH) ∧
       (0 ≤ w.srcX ∧ w.srcX ≤ srcW - 1 ∧ 0 ≤ w.srcY ∧ w.srcY ≤ srcH - 1)) ∧
    (∀ w ∈ render_to_image_buffer_writes srcW srcH dstW dstH p,
       (0 ≤ w.dstX ∧ w.dstX < dstW ∧ 0 ≤ w.dstY ∧ w.dstY < dstH) ∧
       (0 ≤ w.srcX ∧ w.srcX ≤ srcW - 1 ∧ 0 ≤ w.srcY ∧ w.srcY ≤ srcH - 1)) := by
  constructor
  · intro w hw
    simp only [apply_scaling_shm_writes] at hw
    rw [List.mem_flatMap] at hw
    obtain ⟨y, hy, hw⟩ := hw
    rw [List.mem_filterMap] at hw
    obtain ⟨x, hx, heq⟩ := hw
    rw [List.mem_range] at hy hx
    have hrw : (0 : Int) ≤ p.renderW := by omega
    split at heq
    · exact absurd heq (by simp)
    · rename_i hc
      push_neg at hc
      obtain ⟨hc1, hc2, hc3, hc4⟩ := hc
      rw [Option.some.injEq] at heq
      subst heq
      have hx0 : (0 : Int) ≤ ((x : Int) * srcW).tdiv p.renderW :=
        Int.tdiv_nonneg (mul_nonneg (Int.natCast_nonneg x) hsw.le) hrw
      dsimp only
      refine ⟨⟨by omega, by omega, by omega, by omega⟩, ?_, ?_, ?_, ?_⟩ <;>
        (split_ifs <;> omega)
  · intro w hw
    simp only [render_to_image_buffer_writes] at hw
    rw [List.mem_flatMap] at hw
    obtain ⟨y, hy, hw⟩ := hw
    rw [List.mem_filterMap] at hw
    obtain ⟨x, hx, heq⟩ := hw
    rw [List.mem_range] at hy hx
    have hrw : (0 : Int) ≤ p.renderW := by omega
    split at heq
    · exact absurd heq (by simp)
    · rename_i hc
      push_neg at hc
      obtain ⟨hc1, hc2, hc3, hc4⟩ := hc
      rw [Option.some.injEq] at heq
      subst heq
      have hx0 : (0 : Int) ≤ ((x : Int) * srcW).tdiv p.renderW :=
        Int.tdiv_nonneg (mul_nonneg (Int.natCast_nonneg x) hsw.le) hrw
      dsimp only
      refine ⟨⟨by omega, by omega, by omega, by omega⟩, ?_, ?_, ?_, ?_⟩ <;>
        (split_ifs <;> omega)

/-- C6 witness: the bounds theorem applied to a FILL-style placement with
negative offsets (render 3x3 at offset (-1,-1) into a 2x2 destination,
source 4x3, windowed mode). -/
theorem c6_copy_writes_in_bounds_witness :
    (0 : Int) < 4 ∧ (0 : Int) < 3 ∧
    ((∀ w ∈ apply_scaling_shm_writes 4 3 2 2 ⟨3, 3, -1, -1⟩ true,
       (0 ≤ w.dstX ∧ w.dstX < 2 ∧ 0 ≤ w.dstY ∧ w.dstY < 2) ∧
       (0 ≤ w.srcX ∧ w.srcX ≤ 4 - 1 ∧ 0 ≤ w.srcY ∧ w.srcY ≤ 3 - 1)) ∧
     (∀ w ∈ render_to_image_buffer_writes 4 3 2 2 ⟨3, 3, -1, -1⟩,
       (0 ≤ w.dstX ∧ w.dstX < 2 ∧ 0 ≤ w.dstY ∧ w.dstY < 2) ∧
       (0 ≤ w.srcX ∧ w.srcX ≤ 4 - 1 ∧ 0 ≤ w.srcY ∧ w.srcY ≤ 3 - 1))) :=
  ⟨by decide, by decide,
    c6_copy_writes_in_bounds 4 3 2 2 ⟨3, 3, -1, -1⟩ true (by decide) (by decide)⟩

/-- Helper: length of a row-major nested-loop buffer fill. -/
lemma flatMap_range_map_length {α : Type} (n c : ℕ) (F : ℕ → ℕ → α) :
    ((List.range n).flatMap (fun i => (List.range c).map (F i))).length = n * c := by
  induction n with
  | zero => simp
  | succ m ih =>
      rw [List.range_succ, List.flatMap_append, List.length_append, ih]
      simp [Nat.succ_mul]

/-- Helper: slot sample*channels+ch of a row-major nested-loop buffer
fill holds the value written for (sample, ch). -/
lemma flatMap_range_map_getD {α : Type} (n c s ch : ℕ) (F : ℕ → ℕ → α) (d : α)
    (hs : s < n) (hch : ch < c) :
    ((List.range n).flatMap (fun i => (List.range c).map (F i))).getD (s * c + ch) d
      = F s ch := by
  induction n with
  | zero => exact absurd hs (Nat.not_lt_zero s)
  | succ m ih =>
      rw [List.range_succ, List.flatMap_append]
      rcases Nat.lt_succ_iff_lt_or_eq.mp hs with h | h
      · rw [List.getD_append]
        · exact ih h
        · rw [flatMap_range_map_length]
          have h1 : s * c + c ≤ m * c := by
            have h2 := Nat.mul_le_mul_right c (show s + 1 ≤ m from h)
            rwa [Nat.succ_mul] at h2
          omega
      · subst h
        rw [List.getD_append_right]
        · rw [flatMap_range_map_length]
          have h1 : s * c + ch - s * c = ch := by omega
          rw [h1]
          simp [List.getD_eq_getElem?_getD, List.getElem?_map, List.getElem?_range, hch]
        · rw [flatMap_range_map_length]
          omega

/-- C7: the audio conversion of process_audio_frame_data.  A 16-bit
interleaved source of matching size is byte-copied unchanged; a planar
float source is per-sample clamped to [-1,1], scaled by 32767, truncated
to signed 16-bit and interleaved at slot sample*channels+ch; a planar
16-bit source is interleaved without rescaling; any other sample format
produces a buffer of the same samples*channels size filled with zeros
(silence) instead of failing. -/
theorem c7_audio_conversion (n c : ℕ) :
    (∀ xs : List Int, xs.length = n * c →
       process_audio_frame_data n c (AudioSampleData.s16 xs) = xs) ∧
    (∀ planes : List (List ℚ), ∀ s ch : ℕ, s < n → ch < c →
       (process_audio_frame_data n c (AudioSampleData.fltp planes)).getD
           (s * c + ch) 0 =
         ratTruncToInt (clampSample ((planes.getD ch []).getD s 0) * 32767)) ∧
    (∀ planes : List (List Int), ∀ s ch : ℕ, s < n → ch < c →
       (process_audio_frame_data n c (AudioSampleData.s16p planes)).getD
           (s * c + ch) 0 =
         (planes.getD ch []).getD s 0) ∧
    (∀ fmt : Int, process_audio_frame_data n c (AudioSampleData.other fmt) =
       List.replicate (n * c) 0) ∧
    (∀ planes : List (List ℚ),
       (process_audio_frame_data n c (AudioSampleData.fltp planes)).length = n * c) ∧
    (∀ planes : List (List Int),
       (process_audio_frame_data n c (AudioSampleData.s16p planes)).length = n * c) := by
  refine ⟨?_, ?_, ?_, ?_, ?_, ?_⟩
  · intro xs h
    simp only [process_audio_frame_data]
    exact List.take_of_length_le h.le
  · intro planes s ch hs hch
    exact flatMap_range_map_getD n c s ch _ 0 hs hch
  · intro planes s ch hs hch
    exact flatMap_range_map_getD n c s ch _ 0 hs hch
  · intro fmt
    rfl
  · intro planes
    exact flatMap_range_map_length n c _
  · intro planes
    exact flatMap_range_map_length n c _

/-- C7 witness: the conversion theorem applied at 2 samples, 2 channels,
reading slot 1*2+0 of a planar-float frame. -/
theorem c7_audio_conversion_witness :
    [(1 : Int), 2, 3, 4].length = 2 * 2 ∧ (1 : ℕ) < 2 ∧ (0 : ℕ) < 2 ∧
    (process_audio_frame_data 2 2
        (AudioSampleData.fltp [[1, -2], [0, 1]])).getD (1 * 2 + 0) 0 =
      ratTruncToInt (clampSample (([[(1 : ℚ), -2], [0, 1]].getD 0 []).getD 1 0)
        * 32767) :=
  ⟨by decide, by decide, by decide,
    (c7_audio_conversion 2 2).2.1 [[1, -2], [0, 1]] 1 0 (by decide) (by decide)⟩

/-- C3 counterexample: in native-rate mode with expected - now = 150ms
(playback start 0, frame PTS 3/20 s, now 0), the claim demands a wait of
min(150ms, 100ms) = 100ms, but the code's guard
(0 < wait_time && wait_time < 0.1) fails and no sleep happens at all:
the wait is 0, not 1/10. -/
theorem c3_no_wait_at_or_above_100ms :
    extract_frame_wait false 0 (3 / 20) 0 = 0 ∧
    (0 : ℚ) < 0 + 3 / 20 ∧
    min ((0 : ℚ) + 3 / 20 - 0) (1 / 10) = 1 / 10 ∧
    extract_frame_wait false 0 (3 / 20) 0 ≠ min ((0 : ℚ) + 3 / 20 - 0) (1 / 10) := by
  have h1 : extract_frame_wait false 0 (3 / 20) 0 = 0 := by
    simp only [extract_frame_wait]
    norm_num
  have h2 : min ((0 : ℚ) + 3 / 20 - 0) (1 / 10) = 1 / 10 := by
    rw [min_def]
    norm_num
  refine ⟨h1, by norm_num, h2, ?_⟩
  rw [h1, h2]
  norm_num

/-- C3 (amended): in native-rate mode (fps limiting off), when
now < expected = playback_start + pts, the decode call waits exactly
expected - now when that gap is below 100ms, and does not wait at all
when the gap is 100ms or more (the sleep is skipped, not capped). -/
theorem c3_native_rate_wait (ps pts now : ℚ) (h : now < ps + pts) :
    extract_frame_wait false ps pts now =
      (if ps + pts - now < 1 / 10 then ps + pts - now else 0) := by
  have h0 : 0 < ps + pts - now := by linarith
  simp only [extract_frame_wait, Bool.false_eq_true, if_false]
  rw [if_pos h]
  split_ifs with h1 h2 <;> first
    | rfl
    | (exact absurd h1.2 h2)
    | (exact absurd ⟨h0, by assumption⟩ h1)

/-- C3 witness: the amended wait theorem applied at playback start 0,
frame PTS 1 s, now 0. -/
theorem c3_native_rate_wait_witness :
    (0 : ℚ) < 0 + 1 ∧
    extract_frame_wait false 0 1 0 =
      (if (0 : ℚ) + 1 - 0 < 1 / 10 then 0 + 1 - 0 else 0) :=
  ⟨by simp, c3_native_rate_wait 0 1 0 (by simp)⟩

/-- Helper: comparing a truncated microsecond duration against the
target interval equals comparing the raw nanosecond duration against
1000 times the interval, for non-negative durations. -/
lemma tdiv_1000_le_iff (x I : Int) (hx : 0 ≤ x) :
    I ≤ x.tdiv 1000 ↔ 1000 * I ≤ x := by
  rw [Int.tdiv_eq_ediv hx (by norm_num),
    Int.le_ediv_iff_mul_le (by norm_num : (0 : Int) < 1000), mul_comm]

/-- Helper: the gate returns true exactly when the truncated elapsed
microseconds reach the target interval. -/
lemma sdf_fst_iff (fps : ℚ) (l n : Int) :
    (should_display_frame fps l n).1 = true ↔
      target_interval_us fps ≤ (n - l).tdiv 1000 := by
  simp only [should_display_frame]
  split_ifs with hc <;> simp [hc]

/-- Helper: a true-returning gate call records the call time. -/
lemma sdf_true_snd (fps : ℚ) (l n : Int)
    (h : (should_display_frame fps l n).1 = true) :
    (should_display_frame fps l n).2 = n := by
  simp only [should_display_frame] at h ⊢
  split_ifs with hc
  · rfl
  · rw [if_neg hc] at h
    exact absurd h (by simp)

/-- Helper: a false-returning gate call leaves the stored time alone. -/
lemma sdf_false_snd (fps : ℚ) (l n : Int)
    (h : (should_display_frame fps l n).1 = false) :
    (should_display_frame fps l n).2 = l := by
  simp only [should_display_frame] at h ⊢
  split_ifs with hc
  · rw [if_pos hc] at h
    exact absurd h (by simp)
  · rfl

/-- Helper: with a positive target interval, a true return is at least
1000 * interval nanoseconds after the stored time. -/
lemma sdf_true_gap (fps : ℚ) (l t : Int)
    (hI : 0 < target_interval_us fps)
    (h : (should_display_frame fps l t).1 = true) :
    l + 1000 * target_interval_us fps ≤ t := by
  have hcond := (sdf_fst_iff fps l t).1 h
  by_cases hx : 0 ≤ t - l
  · have := (tdiv_1000_le_iff (t - l) (target_interval_us fps) hx).1 hcond
    omega
  · exfalso
    have hneg : (t - l).tdiv 1000 ≤ 0 := by
      have he : t - l = -(l - t) := by ring
      rw [he, Int.neg_tdiv]
      have hp : 0 ≤ (l - t).tdiv 1000 :=
        Int.tdiv_nonneg (by omega) (by norm_num)
      omega
    omega

/-- Helper: the head of the true-times list is a true-returning call
from the initial stored time, and is one of the call times. -/
lemma display_true_times_head (fps : ℚ) :
    ∀ (ts : List Int) (last x : Int) (xs : List Int),
      display_true_times fps last ts = x :: xs →
      (should_display_frame fps last x).1 = true ∧ x ∈ ts := by
  intro ts
  induction ts with
  | nil =>
      intro last x xs h
      exact absurd h (by simp [display_true_times])
  | cons t ts ih =>
      intro last x xs h
      simp only [display_true_times] at h
      by_cases hc : (should_display_frame fps last t).1 = true
      · rw [if_pos hc, List.cons.injEq] at h
        obtain ⟨rfl, -⟩ := h
        exact ⟨hc, List.mem_cons_self t ts⟩
      · have hcf : (should_display_frame fps last t).1 = false :=
          Bool.eq_false_iff.mpr hc
        rw [if_neg hc, sdf_false_snd fps last t hcf] at h
        obtain ⟨h1, h2⟩ := ih last x xs h
        exact ⟨h1, List.mem_cons_of_mem t h2⟩

/-- Helper: if the true-times list starts at x, then x plus
1000 * interval per further true return stays at or below any bound on
the call times. -/
lemma display_true_times_bound (fps : ℚ) (b : Int)
    (hI : 0 < target_interval_us fps) :
    ∀ (ts : List Int) (last x : Int) (xs : List Int),
      (∀ t ∈ ts, t ≤ b) →
      display_true_times fps last ts = x :: xs →
      x + 1000 * target_interval_us fps * xs.length ≤ b := by
  intro ts
  induction ts with
  | nil =>
      intro last x xs _ h
      exact absurd h (by simp [display_true_times])
  | cons t ts ih =>
      intro last x xs hb h
      simp only [display_true_times] at h
      by_cases hc : (should_display_frame fps last t).1 = true
      · rw [if_pos hc, List.cons.injEq] at h
        obtain ⟨rfl, hxs⟩ := h
        rw [sdf_true_snd fps last t hc] at hxs
        cases xs with
        | nil =>
            have hxb : t ≤ b := hb t (List.mem_cons_self t ts)
            simpa using hxb
        | cons y ys =>
            obtain ⟨hytrue, -⟩ :=
              display_true_times_head fps ts t y ys hxs
            have hgap := sdf_true_gap fps t y hI hytrue
            have hihy := ih t y ys
              (fun s hs => hb s (List.mem_cons_of_mem t hs)) hxs
            have hlen : (((y :: ys).length : ℕ) : Int) = (ys.length : Int) + 1 := by
              push_cast [List.length_cons]
              ring
            rw [hlen, mul_add, mul_one]
            linarith
      · have hcf : (should_display_frame fps last t).1 = false :=
          Bool.eq_false_iff.mpr hc
        rw [if_neg hc, sdf_false_snd fps last t hcf] at h
        exact ih last x xs (fun s hs => hb s (List.mem_cons_of_mem t hs)) h

/-- C4 counterexample: with target_display_fps = 3 and an elapsed time of
exactly 333333 microseconds since the stored time, the gate returns true
even though the elapsed wall-clock time, 333333000 ns = 0.333333 s, is
strictly less than 1 / target_display_fps = 1/3 s: the code compares the
truncated microsecond count against the truncated interval
(int64)(1000000/3) = 333333 us, not against 1/f seconds. -/
theorem c4_true_below_one_over_fps :
    (should_display_frame 3 0 333333000).1 = true ∧
    (333333000 : ℚ) / 1000000000 < 1 / 3 := by
  constructor
  · decide
  · norm_num

/-- C4 (amended): the gate returns true, recording the call time, exactly
when the elapsed nanoseconds since the stored time reach 1000 times the
truncated interval (int64)(1000000/target_display_fps) in microseconds
(not the exact 1/fps seconds); consequently, over any call sequence whose
times lie in [a, b], the number of true returns is at most
(b - a) / (1000 * interval) + 1. -/
theorem c4_display_gate (fps : ℚ) :
    (∀ l n : Int, l ≤ n →
       ((should_display_frame fps l n).1 = true ↔
           1000 * target_interval_us fps ≤ n - l) ∧
       ((should_display_frame fps l n).1 = true →
           (should_display_frame fps l n).2 = n) ∧
       ((should_display_frame fps l n).1 = false →
           (should_display_frame fps l n).2 = l)) ∧
    (∀ (last a b : Int) (calls : List Int),
       0 < target_interval_us fps →
       (∀ t ∈ calls, a ≤ t ∧ t ≤ b) → a ≤ b →
       ((display_true_times fps last calls).length : Int) ≤
         (b - a) / (1000 * target_interval_us fps) + 1) := by
  constructor
  · intro l n h
    refine ⟨?_, fun ht => sdf_true_snd fps l n ht,
      fun hf => sdf_false_snd fps l n hf⟩
    exact (sdf_fst_iff fps l n).trans
      (tdiv_1000_le_iff (n - l) (target_interval_us fps) (by omega))
  · intro last a b calls hI hab haleb
    rcases hdt : display_true_times fps last calls with _ | ⟨x, xs⟩
    · have h0 : (0 : Int) ≤ (b - a) / (1000 * target_interval_us fps) :=
        Int.ediv_nonneg (by omega) (by omega)
      simp only [List.length_nil, Nat.cast_zero]
      omega
    · obtain ⟨hxtrue, hxmem⟩ := display_true_times_head fps calls last x xs hdt
      have hax : a ≤ x := (hab x hxmem).1
      have hbound := display_true_times_bound fps b hI calls last x xs
        (fun t ht => (hab t ht).2) hdt
      have hK : (0 : Int) < 1000 * target_interval_us fps := by omega
      have h1 : ((xs.length : ℕ) : Int) ≤
          (b - a) / (1000 * target_interval_us fps) := by
        rw [Int.le_ediv_iff_mul_le hK]
        have h2 : 1000 * target_interval_us fps * (xs.length : Int) ≤ b - a := by
          linarith
        linarith [mul_comm ((xs.length : ℕ) : Int)
          (1000 * target_interval_us fps)]
      have hlen : (((x :: xs).length : ℕ) : Int) = (xs.length : Int) + 1 := by
        push_cast [List.length_cons]
        ring
      rw [hlen]
      linarith

/-- C4 witness: the amended gate theorem applied at fps 60, stored time
0, a single call at 50 ms, all call times within [0, 50000000] ns. -/
theorem c4_display_gate_witness :
    (0 : Int) < target_interval_us 60 ∧
    (∀ t ∈ [(50000000 : Int)], (0 : Int) ≤ t ∧ t ≤ 50000000) ∧
    (0 : Int) ≤ 50000000 ∧
    ((display_true_times 60 0 [(50000000 : Int)]).length : Int) ≤
      (50000000 - 0) / (1000 * target_interval_us 60) + 1 :=
  ⟨by decide, by decide, by decide,
    (c4_display_gate 60).2 0 0 50000000 [(50000000 : Int)]
      (by decide) (by decide) (by decide)⟩

/-- C10: the pacing gate's stored last-display timestamp is the
function-local static of should_display_frame, one process-wide cell
shared by every MediaPlayer instance (the per-instance member
last_display_time_ declared in media_player.h:137 is never read by the
gate) and untouched by load_media.  Consequently, after any instance
obtains a true return at time t, a call through ANY instance (any
target_display_fps value fpsB) at a time u less than one target interval
after t returns false: a true return through one player delays the next
true return of every other player. -/
theorem c10_pacing_gate_shared (fpsA fpsB : ℚ) (g t u : Int)
    (htrue : (should_display_frame fpsA g t).1 = true) (hle : t ≤ u)
    (hgap : u - t < 1000 * target_interval_us fpsB) :
    (should_display_frame fpsA g t).2 = t ∧
    (should_display_frame fpsB (should_display_frame fpsA g t).2 u).1 = false := by
  have hsnd := sdf_true_snd fpsA g t htrue
  refine ⟨hsnd, ?_⟩
  rw [hsnd]
  have hx : (0 : Int) ≤ u - t := by omega
  have hnot : ¬ target_interval_us fpsB ≤ (u - t).tdiv 1000 := by
    rw [tdiv_1000_le_iff (u - t) (target_interval_us fpsB) hx]
    omega
  exact Bool.eq_false_iff.mpr
    (fun hh => hnot ((sdf_fst_iff fpsB t u).1 hh))

/-- C10 witness: a true return through one player at t = 20 ms delays a
call through another player (same 60 fps target) 1 us later. -/
theorem c10_pacing_gate_shared_witness :
    (should_display_frame 60 0 20000000).1 = true ∧
    (20000000 : Int) ≤ 20001000 ∧
    (20001000 : Int) - 20000000 < 1000 * target_interval_us 60 ∧
    ((should_display_frame 60 0 20000000).2 = 20000000 ∧
     (should_display_frame 60 (should_display_frame 60 0 20000000).2
        20001000).1 = false) :=
  ⟨by decide, by decide, by decide,
    c10_pacing_gate_shared 60 60 0 20000000 20001000
      (by decide) (by decide) (by decide)⟩

/-- C9: for a stream that contains a decodable video frame,
extract_next_frame never fails with an end-of-stream error: from any
read position past the last decodable frame (end of stream), it seeks
back to the stream start, resets playback_start to the current time and
the video clock, and returns the stream's FIRST video frame's PTS, with
the read position just past that first frame.  The first conjunct states
the loop-back step exactly; the second states that the call succeeds
from every state whenever the stream has a decodable frame. -/
theorem c9_eos_loops_to_first_pts (stream : List MediaPacket) (videoIdx : Int)
    (now : ℚ) (st : ExtractState) (i : ℕ) (pts0 : ℚ)
    (hfirst : firstFrame videoIdx stream = some (i, pts0))
    (hstarted : st.playbackStart ≠ 0)
    (heos : firstFrame videoIdx (stream.drop st.readPos) = none) :
    extract_next_frame stream videoIdx now st =
      some (pts0, ⟨i + 1, pts0, now, pts0, true⟩) ∧
    (∀ st' : ExtractState,
      (extract_next_frame stream videoIdx now st').isSome = true) := by
  constructor
  · simp only [extract_next_frame, if_neg hstarted, heos, hfirst]
  · intro st'
    simp only [extract_next_frame]
    split
    · simp
    · split
      · simp
      · rename_i heq2
        rw [hfirst] at heq2
        exact absurd heq2 (by simp)

/-- C9 witness: the loop-back theorem applied to a three-packet stream
(an audio packet, a decodable video frame with PTS 2, an undecodable
video packet) with the demuxer position at end of stream. -/
theorem c9_eos_loops_to_first_pts_witness :
    firstFrame 0 [⟨1, none⟩, ⟨0, some 2⟩, ⟨0, none⟩] = some (1, 2) ∧
    ((⟨3, 2, 7, 2, true⟩ : ExtractState).playbackStart ≠ 0) ∧
    firstFrame 0 ([⟨1, none⟩, ⟨0, some 2⟩, ⟨0, none⟩].drop
      (⟨3, 2, 7, 2, true⟩ : ExtractState).readPos) = none ∧
    (extract_next_frame [⟨1, none⟩, ⟨0, some 2⟩, ⟨0, none⟩] 0 9
        ⟨3, 2, 7, 2, true⟩ =
      some (2, ⟨1 + 1, 2, 9, 2, true⟩) ∧
     (∀ st' : ExtractState,
       (extract_next_frame [⟨1, none⟩, ⟨0, some 2⟩, ⟨0, none⟩] 0 9
         st').isSome = true)) :=
  ⟨by decide, by decide, by decide,
    c9_eos_loops_to_first_pts [⟨1, none⟩, ⟨0, some 2⟩, ⟨0, none⟩] 0 9
      ⟨3, 2, 7, 2, true⟩ 1 2 (by decide) (by decide) (by decide)⟩
